import Mathlib

/-!
Shallow embedding of the `ticket-queue` core (`src/TicketQueue.ts`, `src/Ticket.ts`).

Tickets are identified by their numeric id (`bigint` in the source, `Nat` here);
within one queue every ticket object ever produced by `acquireTicket` carries a
distinct id, so the id serves as the object identity.  The mutable fields of a
`Ticket` object (`disposed`, `retries`) live in the queue state's `tickets` map;
`acquireTicket` overwrites the entry at the fresh id, modelling allocation of a
new object.  Event emission (`tseep` emitter) is modelled by returning the list
of emitted events in emission order.
-/

/-- Mutable per-ticket state of `Ticket` (src/Ticket.ts): `disposed` and `retries`.
The immutable `id` is the key under which the record is stored. -/
structure Ticket where
  disposed : Bool
  retries : Nat
  deriving DecidableEq

/-- A freshly constructed `Ticket`: `disposed = false`, `retries = 0`. -/
def newTicket : Ticket := { disposed := false, retries := 0 }

/-- Events emitted by the queue, in the source the `tseep` `EventEmitter` events
`newFirstTicket(ticket | null)`, `acquireTicket(ticket)`, `removeTicket(ticket, reason?)`. -/
inductive Event where
  | newFirstTicket (ticket : Option Nat)
  | acquireTicket (ticket : Nat)
  | removeTicket (ticket : Nat) (reason : Option String)
  deriving DecidableEq

/-- State of a `TicketQueue` (src/TicketQueue.ts): the ordered `queue` of live
ticket ids, the per-id ticket records, the `ticketCount` id counter, and the
immutable `ticketTimeout` / `ticketRetries` configuration (numbers in the
source, so `Int` here: they may be negative before construction validates them). -/
structure TicketQueue where
  queue : List Nat
  tickets : Nat → Ticket
  ticketCount : Nat
  ticketTimeout : Int
  ticketRetries : Int

/-- Options accepted by the `TicketQueue` constructor; both fields optional. -/
structure TicketQueueOptions where
  ticketTimeout : Option Int
  ticketRetries : Option Int

/-- A fresh queue with the given validated configuration: empty `queue`,
`ticketCount = 0`, all ticket records at their defaults. -/
def TicketQueue.new (ticketTimeout ticketRetries : Int) : TicketQueue :=
  { queue := [], tickets := fun _ => newTicket, ticketCount := 0,
    ticketTimeout := ticketTimeout, ticketRetries := ticketRetries }

/-- The `TicketQueue` constructor: applies the defaults `ticketTimeout ?? 1000`,
`ticketRetries ?? 3`, then throws on a negative timeout, then on a negative
retry count; otherwise the queue is created. -/
def mkTicketQueue (options : TicketQueueOptions) : Except String TicketQueue :=
  let ticketTimeout := options.ticketTimeout.getD 1000
  let ticketRetries := options.ticketRetries.getD 3
  if ticketTimeout < 0 then
    Except.error "Ticket timeout must be a non-negative number"
  else if ticketRetries < 0 then
    Except.error "Ticket retries must be a non-negative number"
  else
    Except.ok (TicketQueue.new ticketTimeout ticketRetries)

/-- Translation of `getFirstTicket()`: the head of `queue`, or `null` (`none`). -/
def TicketQueue.getFirstTicket (q : TicketQueue) : Option Nat :=
  q.queue.head?

/-- Translation of the constructor's `newFirstTicket` listener guard: a stall
timer is armed exactly when the emitted head is non-null and `ticketTimeout > 0`. -/
def TicketQueue.armsStallTimer (q : TicketQueue) (newHead : Option Nat) : Bool :=
  newHead.isSome && decide (0 < q.ticketTimeout)

/-- Translation of `acquireTicket()`: make a ticket with id `ticketCount++`,
push it on the queue, emit `acquireTicket`, and emit `newFirstTicket` when the
queue length after the push is 1.  Returns (new state, new id, emitted events). -/
def TicketQueue.acquireTicket (q : TicketQueue) : TicketQueue × Nat × List Event :=
  let tid := q.ticketCount
  let queue := q.queue ++ [tid]
  let q' : TicketQueue :=
    { q with queue := queue,
             tickets := fun n => if n = tid then newTicket else q.tickets n,
             ticketCount := tid + 1 }
  let events :=
    [Event.acquireTicket tid] ++
      (if queue.length = 1 then [Event.newFirstTicket (some tid)] else [])
  (q', tid, events)

/-- Translation of `removeTicket(ticket, reason?)`: if `indexOf === -1`, return;
otherwise mark the ticket disposed, `splice` it out (erase the first occurrence),
emit `removeTicket(ticket, reason)`, and when the index was 0 (the ticket was the
head, equivalently `head? = some t` given membership) also emit
`newFirstTicket(getFirstTicket())` for the updated queue. -/
def TicketQueue.removeTicket (q : TicketQueue) (t : Nat) (reason : Option String) :
    TicketQueue × List Event :=
  if t ∈ q.queue then
    let q' : TicketQueue :=
      { q with queue := q.queue.erase t,
               tickets := fun n =>
                 if n = t then { q.tickets n with disposed := true } else q.tickets n }
    (q', Event.removeTicket t reason ::
      (if q.getFirstTicket = some t then [Event.newFirstTicket q'.getFirstTicket] else []))
  else (q, [])

/-- The fixed eviction reason used by the stall timer callback. -/
def stallReason : String := "Ticket timed out and reached retry limit"

/-- Translation of the stall timer callback closed over ticket `t` (the
constructor's `setTimeout` body): if `t` is still the first ticket, either
requeue it (`retries++`, `shift`, `push`, emit `newFirstTicket(getFirstTicket())`)
when `retries < ticketRetries`, or remove it with the fixed reason; otherwise
do nothing. -/
def TicketQueue.stallTimerFire (q : TicketQueue) (t : Nat) : TicketQueue × List Event :=
  if q.getFirstTicket = some t then
    if ((q.tickets t).retries : Int) < q.ticketRetries then
      let q' : TicketQueue :=
        { q with
          tickets := fun n =>
            if n = t then { q.tickets n with retries := (q.tickets n).retries + 1 }
            else q.tickets n,
          queue := q.queue.tail ++ [t] }
      (q', [Event.newFirstTicket q'.getFirstTicket])
    else
      q.removeTicket t (some stallReason)
  else (q, [])

/-- Outcome of the synchronous body of `waitForFirst(ticket)` (the promise
executor): immediate rejection, immediate resolution, or going pending with
both listeners registered.  The executor reads queue state and never mutates it. -/
inductive WaitOutcome where
  | rejectedDisposed
  | rejectedNotInQueue
  | resolvedImmediately
  | pending
  deriving DecidableEq

/-- Translation of `waitForFirst(ticket)`'s executor: reject when disposed,
else reject when not in the queue, else resolve when already first, else pending. -/
def TicketQueue.waitForFirst (q : TicketQueue) (t : Nat) : WaitOutcome :=
  if (q.tickets t).disposed then WaitOutcome.rejectedDisposed
  else if t ∈ q.queue then
    if q.getFirstTicket = some t then WaitOutcome.resolvedImmediately
    else WaitOutcome.pending
  else WaitOutcome.rejectedNotInQueue

/-- Translation of `Ticket.removeFromQueue(reason?)`: no-op when already
disposed; otherwise call `ticketQueue.removeTicket(this, reason)` and then set
`this.disposed = true`. -/
def TicketQueue.removeFromQueue (q : TicketQueue) (t : Nat) (reason : Option String) :
    TicketQueue × List Event :=
  if (q.tickets t).disposed then (q, [])
  else
    let r := q.removeTicket t reason
    ({ r.1 with
        tickets := fun n =>
          if n = t then { r.1.tickets n with disposed := true } else r.1.tickets n },
      r.2)

/-- The fixed reason supplied by the scoped-disposal hook `Ticket[Symbol.dispose]`. -/
def explicitResourceManagement : String := "Explicit Resource Management"

/-- Translation of `Ticket[Symbol.dispose]()`: `removeFromQueue` with the fixed
scoped-disposal reason. -/
def TicketQueue.disposeTicket (q : TicketQueue) (t : Nat) : TicketQueue × List Event :=
  q.removeFromQueue t (some explicitResourceManagement)

/-- How a settled `waitForFirst` promise settled. -/
inductive SettleResult where
  | resolved
  | rejected (reason : Option String)
  deriving DecidableEq

/-- JavaScript promise settle-once semantics: a later `resolve`/`reject` call on
an already settled promise is ignored. -/
def settleOnce (r : Option SettleResult) (v : SettleResult) : Option SettleResult :=
  match r with
  | some x => some x
  | none => some v

/-- A pending `waitForFirst(ticket)` in its listener-registered state: whether
each of its two listeners is still subscribed on the emitter, and the promise's
settlement, if any. -/
structure Waiter where
  ticket : Nat
  subNewFirst : Bool
  subRemove : Bool
  result : Option SettleResult
  deriving DecidableEq

/-- The waiter just after `waitForFirst` registers `newTicketListener` and
`removeTicketListener`: both subscribed, promise pending. -/
def mkWaiter (t : Nat) : Waiter :=
  { ticket := t, subNewFirst := true, subRemove := true, result := none }

/-- Translation of `newTicketListener`: when still subscribed and the emitted
new head is this ticket, unsubscribe `newTicketListener` (only) and resolve. -/
def Waiter.onNewFirstTicket (w : Waiter) (newFirst : Option Nat) : Waiter :=
  if w.subNewFirst then
    if newFirst = some w.ticket then
      { w with subNewFirst := false, result := settleOnce w.result SettleResult.resolved }
    else w
  else w

/-- Translation of `removeTicketListener`: when still subscribed and the removed
ticket is this ticket, unsubscribe both listeners and reject with the reason. -/
def Waiter.onRemoveTicket (w : Waiter) (removed : Nat) (reason : Option String) : Waiter :=
  if w.subRemove then
    if removed = w.ticket then
      { w with subNewFirst := false, subRemove := false,
               result := settleOnce w.result (SettleResult.rejected reason) }
    else w
  else w

/-- Deliver one emitted event to the waiter's listeners. -/
def Waiter.deliver (w : Waiter) : Event → Waiter
  | Event.newFirstTicket nf => w.onNewFirstTicket nf
  | Event.removeTicket t r => w.onRemoveTicket t r
  | Event.acquireTicket _ => w

/-- Deliver a list of emitted events in order. -/
def Waiter.deliverAll (w : Waiter) (events : List Event) : Waiter :=
  events.foldl Waiter.deliver w

/-- One step of the queue's state machine: any of the operations that mutate
queue state (acquire, remove with any ticket/reason, a stall-timer expiry
watching any ticket, and the ticket-side removal paths). -/
inductive TicketQueue.Step : TicketQueue → TicketQueue → Prop where
  | acquire (q : TicketQueue) : TicketQueue.Step q q.acquireTicket.1
  | remove (q : TicketQueue) (t : Nat) (reason : Option String) :
      TicketQueue.Step q (q.removeTicket t reason).1
  | fire (q : TicketQueue) (t : Nat) : TicketQueue.Step q (q.stallTimerFire t).1
  | removeFromQ (q : TicketQueue) (t : Nat) (reason : Option String) :
      TicketQueue.Step q (q.removeFromQueue t reason).1
  | dispose (q : TicketQueue) (t : Nat) : TicketQueue.Step q (q.disposeTicket t).1

/-- Reachability: finitely many steps from a freshly constructed queue. -/
def TicketQueue.Reachable (timeout retries : Int) (q : TicketQueue) : Prop :=
  Relation.ReflTransGen TicketQueue.Step (TicketQueue.new timeout retries) q

/-- The structural invariant of the queue: no duplicate ids in `queue`, every
enqueued ticket undisposed, and every enqueued id below the id counter. -/
def TicketQueue.Inv (q : TicketQueue) : Prop :=
  q.queue.Nodup ∧
  (∀ t ∈ q.queue, (q.tickets t).disposed = false) ∧
  (∀ t ∈ q.queue, t < q.ticketCount)

/-! ### Helper lemmas -/

/-- A non-empty head determines the shape of the queue. -/
theorem getFirstTicket_cons (q : TicketQueue) (t : Nat) (h : q.getFirstTicket = some t) :
    ∃ rest, q.queue = t :: rest := by
  cases hq : q.queue with
  | nil => simp [TicketQueue.getFirstTicket, hq] at h
  | cons a l =>
    simp only [TicketQueue.getFirstTicket, hq, List.head?_cons, Option.some.injEq] at h
    subst h
    exact ⟨l, rfl⟩

/-- The head ticket is a member of the queue. -/
theorem mem_of_getFirstTicket (q : TicketQueue) (t : Nat) (h : q.getFirstTicket = some t) :
    t ∈ q.queue := by
  obtain ⟨rest, hq⟩ := getFirstTicket_cons q t h
  rw [hq]
  exact List.mem_cons_self t rest

/-- `removeTicket` never touches the id counter. -/
theorem removeTicket_ticketCount (q : TicketQueue) (t : Nat) (r : Option String) :
    (q.removeTicket t r).1.ticketCount = q.ticketCount := by
  unfold TicketQueue.removeTicket
  split <;> rfl

/-- `removeTicket` never touches the retry-limit configuration. -/
theorem removeTicket_ticketRetries (q : TicketQueue) (t : Nat) (r : Option String) :
    (q.removeTicket t r).1.ticketRetries = q.ticketRetries := by
  unfold TicketQueue.removeTicket
  split <;> rfl

/-- The stall timer callback never touches the id counter. -/
theorem stallTimerFire_ticketCount (q : TicketQueue) (t : Nat) :
    (q.stallTimerFire t).1.ticketCount = q.ticketCount := by
  unfold TicketQueue.stallTimerFire
  split
  · split
    · rfl
    · exact removeTicket_ticketCount q t (some stallReason)
  · rfl

/-- The stall timer callback never touches the retry-limit configuration. -/
theorem stallTimerFire_ticketRetries (q : TicketQueue) (t : Nat) :
    (q.stallTimerFire t).1.ticketRetries = q.ticketRetries := by
  unfold TicketQueue.stallTimerFire
  split
  · split
    · rfl
    · exact removeTicket_ticketRetries q t (some stallReason)
  · rfl

/-- `removeFromQueue` never touches the id counter. -/
theorem removeFromQueue_ticketCount (q : TicketQueue) (t : Nat) (r : Option String) :
    (q.removeFromQueue t r).1.ticketCount = q.ticketCount := by
  unfold TicketQueue.removeFromQueue
  split
  · rfl
  · exact removeTicket_ticketCount q t r

/-- Requeue branch of the stall timer callback, fully computed. -/
theorem stallTimerFire_requeue (q : TicketQueue) (t : Nat)
    (hh : q.getFirstTicket = some t)
    (hlt : ((q.tickets t).retries : Int) < q.ticketRetries) :
    q.stallTimerFire t =
      ({ q with
          tickets := fun n =>
            if n = t then { q.tickets n with retries := (q.tickets n).retries + 1 }
            else q.tickets n,
          queue := q.queue.tail ++ [t] },
        [Event.newFirstTicket ((q.queue.tail ++ [t]).head?)]) := by
  have hh' : q.queue.head? = some t := hh
  simp [TicketQueue.stallTimerFire, hh, hh', hlt, TicketQueue.getFirstTicket]

/-- Eviction branch of the stall timer callback: it is literally `removeTicket`
with the fixed stall reason. -/
theorem stallTimerFire_evict (q : TicketQueue) (t : Nat)
    (hh : q.getFirstTicket = some t)
    (hge : ¬ ((q.tickets t).retries : Int) < q.ticketRetries) :
    q.stallTimerFire t = q.removeTicket t (some stallReason) := by
  simp [TicketQueue.stallTimerFire, hh, hge]

/-- `removeTicket` on a present ticket, fully computed. -/
theorem removeTicket_mem (q : TicketQueue) (t : Nat) (r : Option String)
    (hm : t ∈ q.queue) :
    q.removeTicket t r =
      ({ q with queue := q.queue.erase t,
                tickets := fun n =>
                  if n = t then { q.tickets n with disposed := true } else q.tickets n },
        Event.removeTicket t r ::
          (if q.getFirstTicket = some t
            then [Event.newFirstTicket (q.queue.erase t).head?] else [])) := by
  simp [TicketQueue.removeTicket, hm, TicketQueue.getFirstTicket]

/-- `removeTicket` on an absent ticket is a no-op emitting nothing. -/
theorem removeTicket_not_mem (q : TicketQueue) (t : Nat) (r : Option String)
    (hm : t ∉ q.queue) :
    q.removeTicket t r = (q, []) := by
  simp [TicketQueue.removeTicket, hm]

/-! ### Concrete example states used by witnesses -/

/-- A queue built by two acquisitions from a default-configured queue:
`queue = [0, 1]`, both tickets fresh. -/
def qTwo : TicketQueue :=
  ((TicketQueue.new 1000 3).acquireTicket.1).acquireTicket.1

/-! ### Claim theorems -/

/-- C3: `waitForFirst(t)` rejects immediately with the disposed condition when
`t` is disposed (that check taking precedence over everything else), rejects
immediately with the not-present condition when `t` is undisposed but absent
from `queue`, and resolves immediately when `t` is the head; the promise
executor only reads the queue state, so the queue is unchanged in every case. -/
theorem waitForFirst_immediate (q : TicketQueue) (t : Nat) :
    ((q.tickets t).disposed = true → q.waitForFirst t = WaitOutcome.rejectedDisposed) ∧
    ((q.tickets t).disposed = false → t ∉ q.queue →
      q.waitForFirst t = WaitOutcome.rejectedNotInQueue) ∧
    ((q.tickets t).disposed = false → q.getFirstTicket = some t →
      q.waitForFirst t = WaitOutcome.resolvedImmediately) := by
  refine ⟨?_, ?_, ?_⟩
  · intro hd
    simp [TicketQueue.waitForFirst, hd]
  · intro hd hm
    simp [TicketQueue.waitForFirst, hd, hm]
  · intro hd hh
    have hm := mem_of_getFirstTicket q t hh
    simp [TicketQueue.waitForFirst, hd, hm, hh]

/-- Witness for C3: concrete instances of all three immediate outcomes. -/
theorem waitForFirst_immediate_witness :
    (((qTwo.removeTicket 0 none).1.tickets 0).disposed = true ∧
      (qTwo.removeTicket 0 none).1.waitForFirst 0 = WaitOutcome.rejectedDisposed) ∧
    ((qTwo.tickets 5).disposed = false ∧ 5 ∉ qTwo.queue ∧
      qTwo.waitForFirst 5 = WaitOutcome.rejectedNotInQueue) ∧
    ((qTwo.tickets 0).disposed = false ∧ qTwo.getFirstTicket = some 0 ∧
      qTwo.waitForFirst 0 = WaitOutcome.resolvedImmediately) :=
  ⟨⟨by decide, (waitForFirst_immediate (qTwo.removeTicket 0 none).1 0).1 (by decide)⟩,
   ⟨by decide, by decide,
     (waitForFirst_immediate qTwo 5).2.1 (by decide) (by decide)⟩,
   ⟨by decide, by decide,
     (waitForFirst_immediate qTwo 0).2.2 (by decide) (by decide)⟩⟩

/-- C4: `removeTicket(t, r)` is a no-op emitting nothing when `t` is absent;
otherwise it marks `t` disposed, erases it from `queue` (leaving every other
ticket record untouched), always emits `removeTicket t r` first, and emits
`newFirstTicket` naming the new head (none when now empty) exactly when `t`
was the head. -/
theorem removeTicket_spec (q : TicketQueue) (t : Nat) (r : Option String)
    (hnd : q.queue.Nodup) :
    (t ∉ q.queue → q.removeTicket t r = (q, [])) ∧
    (t ∈ q.queue →
      ((q.removeTicket t r).1.tickets t).disposed = true ∧
      t ∉ (q.removeTicket t r).1.queue ∧
      (q.removeTicket t r).1.queue = q.queue.erase t ∧
      (∀ u, u ≠ t → (q.removeTicket t r).1.tickets u = q.tickets u) ∧
      (q.getFirstTicket = some t →
        (q.removeTicket t r).2 =
          [Event.removeTicket t r,
           Event.newFirstTicket (q.removeTicket t r).1.getFirstTicket]) ∧
      (q.getFirstTicket ≠ some t →
        (q.removeTicket t r).2 = [Event.removeTicket t r])) := by
  constructor
  · intro hm
    exact removeTicket_not_mem q t r hm
  · intro hm
    rw [removeTicket_mem q t r hm]
    refine ⟨by simp, hnd.not_mem_erase, rfl, ?_, ?_, ?_⟩
    · intro u hu
      simp [hu]
    · intro hh
      have hh' : q.queue.head? = some t := hh
      simp [hh, hh', TicketQueue.getFirstTicket]
    · intro hh
      simp [hh]

/-- Witness for C4: removal of the head of `qTwo` and a no-op removal. -/
theorem removeTicket_spec_witness :
    qTwo.queue.Nodup ∧
    ((qTwo.removeTicket 0 (some "bye")).1.tickets 0).disposed = true ∧
    0 ∉ (qTwo.removeTicket 0 (some "bye")).1.queue ∧
    (qTwo.removeTicket 0 (some "bye")).2 =
      [Event.removeTicket 0 (some "bye"),
       Event.newFirstTicket (qTwo.removeTicket 0 (some "bye")).1.getFirstTicket] ∧
    qTwo.removeTicket 7 none = (qTwo, []) :=
  have h := removeTicket_spec qTwo 0 (some "bye") (by decide)
  have h7 := removeTicket_spec qTwo 7 none (by decide)
  ⟨by decide, (h.2 (by decide)).1, (h.2 (by decide)).2.1,
   (h.2 (by decide)).2.2.2.2.1 (by decide), h7.1 (by decide)⟩

/-- C5: a stall-timer expiry whose watched ticket is no longer head does
nothing (no state change, no event); one that finds it head with retries below
the limit increments its retries, moves it from head to tail with every other
ticket record and the relative order of the remaining tickets unchanged, and
emits `newFirstTicket` for the resulting new head. -/
theorem stallTimer_expiry_behavior (q : TicketQueue) (t : Nat) :
    (q.getFirstTicket ≠ some t → q.stallTimerFire t = (q, [])) ∧
    (∀ rest, q.queue = t :: rest → ((q.tickets t).retries : Int) < q.ticketRetries →
      (q.stallTimerFire t).1.queue = rest ++ [t] ∧
      ((q.stallTimerFire t).1.tickets t).retries = (q.tickets t).retries + 1 ∧
      ((q.stallTimerFire t).1.tickets t).disposed = (q.tickets t).disposed ∧
      (∀ u, u ≠ t → (q.stallTimerFire t).1.tickets u = q.tickets u) ∧
      (q.stallTimerFire t).2 = [Event.newFirstTicket ((rest ++ [t]).head?)]) := by
  constructor
  · intro hne
    simp [TicketQueue.stallTimerFire, hne]
  · intro rest hq hlt
    have hh : q.getFirstTicket = some t := by
      simp [TicketQueue.getFirstTicket, hq]
    rw [stallTimerFire_requeue q t hh hlt]
    refine ⟨by simp [hq], by simp, by simp, ?_, by simp [hq]⟩
    intro u hu
    simp [hu]

/-- Witness for C5: in `qTwo`, an expiry watching the non-head ticket 1 is a
no-op, and an expiry watching the head ticket 0 requeues it. -/
theorem stallTimer_expiry_behavior_witness :
    qTwo.getFirstTicket ≠ some 1 ∧
    qTwo.stallTimerFire 1 = (qTwo, []) ∧
    (qTwo.stallTimerFire 0).1.queue = [1] ++ [0] ∧
    ((qTwo.stallTimerFire 0).1.tickets 0).retries = (qTwo.tickets 0).retries + 1 ∧
    (qTwo.stallTimerFire 0).2 = [Event.newFirstTicket (([1] ++ [0]).head?)] :=
  have h := stallTimer_expiry_behavior qTwo 0
  have h1 := (h.2 [1] (by decide) (by decide))
  ⟨by decide, (stallTimer_expiry_behavior qTwo 1).1 (by decide),
   h1.1, h1.2.1, h1.2.2.2.2⟩

/-- Repeated acquisition: perform `n` `acquireTicket` calls, returning the
final state and the assigned ids in acquisition order. -/
def TicketQueue.acquireN (q : TicketQueue) : Nat → TicketQueue × List Nat
  | 0 => (q, [])
  | n + 1 =>
    let a := q.acquireTicket
    let r := a.1.acquireN n
    (r.1, a.2.1 :: r.2)

/-- Repeated acquisition assigns the consecutive ids starting at `ticketCount`
and appends them to the queue in that order. -/
theorem acquireN_spec (n : Nat) (q : TicketQueue) :
    (q.acquireN n).2 = List.range' q.ticketCount n ∧
    (q.acquireN n).1.queue = q.queue ++ List.range' q.ticketCount n := by
  induction n generalizing q with
  | zero => simp [TicketQueue.acquireN]
  | succ n ih =>
    have h := ih q.acquireTicket.1
    have hc : q.acquireTicket.1.ticketCount = q.ticketCount + 1 := rfl
    have hq : q.acquireTicket.1.queue = q.queue ++ [q.ticketCount] := rfl
    constructor
    · show q.ticketCount :: (q.acquireTicket.1.acquireN n).2 = _
      rw [h.1, hc, List.range'_succ q.ticketCount n 1]
    · show (q.acquireTicket.1.acquireN n).1.queue = _
      rw [h.2, hc, hq, List.range'_succ q.ticketCount n 1]
      simp

/-- Each step of the queue's state machine leaves the id counter unchanged or
increments it; it never decreases and ids are never handed back. -/
theorem step_ticketCount_mono (q q' : TicketQueue) (h : TicketQueue.Step q q') :
    q.ticketCount ≤ q'.ticketCount := by
  cases h with
  | acquire => exact Nat.le_succ q.ticketCount
  | remove t reason => exact le_of_eq (removeTicket_ticketCount q t reason).symm
  | fire t => exact le_of_eq (stallTimerFire_ticketCount q t).symm
  | removeFromQ t reason => exact le_of_eq (removeFromQueue_ticketCount q t reason).symm
  | dispose t =>
    exact le_of_eq (removeFromQueue_ticketCount q t (some explicitResourceManagement)).symm

/-- The id counter is monotone along any run of the state machine. -/
theorem steps_ticketCount_mono (q q' : TicketQueue)
    (h : Relation.ReflTransGen TicketQueue.Step q q') :
    q.ticketCount ≤ q'.ticketCount := by
  induction h with
  | refl => exact le_refl _
  | tail hs hstep ih => exact le_trans ih (step_ticketCount_mono _ _ hstep)

/-- C6: `acquireTicket` assigns the current `ticketCount` as the new id and
increments the counter, appends the fresh undisposed ticket at the tail, always
emits `acquireTicket`, emits `newFirstTicket` naming the new ticket exactly
when the queue was empty, and never fails (it is a total function); ids are
strictly increasing across any later run of queue operations, so they are never
reused; and any sequence of acquisitions with no removals from a fresh queue
leaves the queue holding the assigned ids exactly in acquisition order. -/
theorem acquireTicket_spec :
    (∀ q : TicketQueue,
      q.acquireTicket.2.1 = q.ticketCount ∧
      q.acquireTicket.1.ticketCount = q.ticketCount + 1 ∧
      q.acquireTicket.1.queue = q.queue ++ [q.ticketCount] ∧
      q.acquireTicket.1.tickets q.ticketCount = newTicket ∧
      (q.queue = [] →
        q.acquireTicket.2.2 =
          [Event.acquireTicket q.ticketCount, Event.newFirstTicket (some q.ticketCount)]) ∧
      (q.queue ≠ [] → q.acquireTicket.2.2 = [Event.acquireTicket q.ticketCount])) ∧
    (∀ q q' : TicketQueue,
      Relation.ReflTransGen TicketQueue.Step q.acquireTicket.1 q' →
      q.acquireTicket.2.1 < q'.acquireTicket.2.1) ∧
    (∀ (timeout retries : Int) (n : Nat),
      ((TicketQueue.new timeout retries).acquireN n).2 = List.range' 0 n ∧
      ((TicketQueue.new timeout retries).acquireN n).1.queue = List.range' 0 n) := by
  refine ⟨?_, ?_, ?_⟩
  · intro q
    refine ⟨rfl, rfl, rfl, by simp [TicketQueue.acquireTicket], ?_, ?_⟩
    · intro hq
      simp [TicketQueue.acquireTicket, hq]
    · intro hq
      simp [TicketQueue.acquireTicket, hq]
  · intro q q' hsteps
    have h1 : q.acquireTicket.1.ticketCount = q.ticketCount + 1 := rfl
    have h2 := steps_ticketCount_mono _ _ hsteps
    show q.ticketCount < q'.ticketCount
    omega
  · intro timeout retries n
    have h := acquireN_spec n (TicketQueue.new timeout retries)
    exact ⟨h.1, by simpa using h.2⟩

/-- Witness for C6: concrete acquisitions from a fresh queue. -/
theorem acquireTicket_spec_witness :
    (TicketQueue.new 1000 3).acquireTicket.2.1 = 0 ∧
    (TicketQueue.new 1000 3).queue = [] ∧
    (TicketQueue.new 1000 3).acquireTicket.2.2 =
      [Event.acquireTicket 0, Event.newFirstTicket (some 0)] ∧
    (TicketQueue.new 1000 3).acquireTicket.2.1 <
      (TicketQueue.new 1000 3).acquireTicket.1.acquireTicket.2.1 ∧
    ((TicketQueue.new 1000 3).acquireN 3).1.queue = List.range' 0 3 :=
  have h := acquireTicket_spec
  ⟨(h.1 (TicketQueue.new 1000 3)).1, by decide,
   (h.1 (TicketQueue.new 1000 3)).2.2.2.2.1 (by decide),
   h.2.1 (TicketQueue.new 1000 3) (TicketQueue.new 1000 3).acquireTicket.1
     Relation.ReflTransGen.refl,
   (h.2.2 1000 3 3).2⟩

/-- `acquireTicket` preserves the structural invariant. -/
theorem inv_acquire (q : TicketQueue) (h : q.Inv) : q.acquireTicket.1.Inv := by
  obtain ⟨hnd, hdis, hlt⟩ := h
  have hfresh : q.ticketCount ∉ q.queue := fun hm => lt_irrefl _ (hlt _ hm)
  refine ⟨?_, ?_, ?_⟩
  · show (q.queue ++ [q.ticketCount]).Nodup
    simp [List.nodup_append, hnd, hfresh]
  · intro t ht
    have ht' : t ∈ q.queue ++ [q.ticketCount] := ht
    show (if t = q.ticketCount then newTicket else q.tickets t).disposed = false
    rcases List.mem_append.mp ht' with hm | hm
    · have hne : t ≠ q.ticketCount := fun he => hfresh (he ▸ hm)
      simpa [hne] using hdis t hm
    · simp at hm
      simp [hm, newTicket]
  · intro t ht
    have ht' : t ∈ q.queue ++ [q.ticketCount] := ht
    show t < q.ticketCount + 1
    rcases List.mem_append.mp ht' with hm | hm
    · exact lt_trans (hlt t hm) (Nat.lt_succ_self _)
    · simp at hm
      omega

/-- `removeTicket` preserves the structural invariant. -/
theorem inv_removeTicket (q : TicketQueue) (t : Nat) (r : Option String) (h : q.Inv) :
    (q.removeTicket t r).1.Inv := by
  obtain ⟨hnd, hdis, hlt⟩ := h
  by_cases hm : t ∈ q.queue
  · rw [removeTicket_mem q t r hm]
    refine ⟨hnd.erase t, ?_, ?_⟩
    · intro u hu
      have hu' : u ∈ q.queue.erase t := hu
      have hun : u ∈ q.queue := List.mem_of_mem_erase hu'
      have hne : u ≠ t := (hnd.mem_erase_iff.mp hu').1
      simpa [hne] using hdis u hun
    · intro u hu
      have hu' : u ∈ q.queue.erase t := hu
      exact hlt u (List.mem_of_mem_erase hu')
  · rw [removeTicket_not_mem q t r hm]
    exact ⟨hnd, hdis, hlt⟩

/-- The stall timer callback preserves the structural invariant. -/
theorem inv_fire (q : TicketQueue) (t : Nat) (h : q.Inv) : (q.stallTimerFire t).1.Inv := by
  by_cases hh : q.getFirstTicket = some t
  · by_cases hlt : ((q.tickets t).retries : Int) < q.ticketRetries
    · rw [stallTimerFire_requeue q t hh hlt]
      obtain ⟨rest, hq⟩ := getFirstTicket_cons q t hh
      obtain ⟨hnd, hdis, hcnt⟩ := h
      have hmem : ∀ u, u ∈ q.queue.tail ++ [t] → u ∈ q.queue := by
        intro u hu
        rw [hq] at hu ⊢
        simp only [List.tail_cons] at hu
        rcases List.mem_append.mp hu with h1 | h1
        · exact List.mem_cons_of_mem _ h1
        · simp at h1
          simp [h1]
      refine ⟨?_, ?_, ?_⟩
      · show (q.queue.tail ++ [t]).Nodup
        rw [hq] at hnd ⊢
        simp only [List.tail_cons]
        have h1 : t ∉ rest := (List.nodup_cons.mp hnd).1
        have h2 : rest.Nodup := (List.nodup_cons.mp hnd).2
        simp [List.nodup_append, h1, h2]
      · intro u hu
        have hu' := hmem u hu
        by_cases he : u = t
        · subst he
          simpa using hdis u hu'
        · simpa [he] using hdis u hu'
      · intro u hu
        exact hcnt u (hmem u hu)
    · rw [stallTimerFire_evict q t hh hlt]
      exact inv_removeTicket q t (some stallReason) ⟨h.1, h.2.1, h.2.2⟩
  · have hno : q.stallTimerFire t = (q, []) := by
      simp [TicketQueue.stallTimerFire, hh]
    rw [hno]
    exact h

/-- `removeFromQueue` preserves the structural invariant. -/
theorem inv_removeFromQueue (q : TicketQueue) (t : Nat) (r : Option String) (h : q.Inv) :
    (q.removeFromQueue t r).1.Inv := by
  by_cases hd : (q.tickets t).disposed
  · have hno : q.removeFromQueue t r = (q, []) := by
      simp [TicketQueue.removeFromQueue, hd]
    rw [hno]
    exact h
  · obtain ⟨hnd, hdis, hcnt⟩ := inv_removeTicket q t r h
    have hq : (q.removeFromQueue t r).1.queue = (q.removeTicket t r).1.queue := by
      simp [TicketQueue.removeFromQueue, hd]
    have htk : ∀ u, u ≠ t →
        (q.removeFromQueue t r).1.tickets u = (q.removeTicket t r).1.tickets u := by
      intro u hu
      simp [TicketQueue.removeFromQueue, hd, hu]
    have hnotin : t ∉ (q.removeTicket t r).1.queue := by
      by_cases hm : t ∈ q.queue
      · rw [removeTicket_mem q t r hm]
        exact h.1.not_mem_erase
      · rw [removeTicket_not_mem q t r hm]
        exact hm
    refine ⟨?_, ?_, ?_⟩
    · rw [hq]
      exact hnd
    · intro u hu
      rw [hq] at hu
      have hne : u ≠ t := fun he => hnotin (he ▸ hu)
      rw [htk u hne]
      exact hdis u hu
    · intro u hu
      rw [hq] at hu
      have hcc : (q.removeFromQueue t r).1.ticketCount = (q.removeTicket t r).1.ticketCount := by
        rw [removeFromQueue_ticketCount, removeTicket_ticketCount]
      rw [hcc]
      exact hcnt u hu

/-- Every step of the state machine preserves the structural invariant. -/
theorem step_preserves_inv (q q' : TicketQueue) (hs : TicketQueue.Step q q')
    (h : q.Inv) : q'.Inv := by
  cases hs with
  | acquire => exact inv_acquire q h
  | remove t reason => exact inv_removeTicket q t reason h
  | fire t => exact inv_fire q t h
  | removeFromQ t reason => exact inv_removeFromQueue q t reason h
  | dispose t => exact inv_removeFromQueue q t (some explicitResourceManagement) h

/-- C7: in every state reachable through the queue's operations (acquire,
remove, the supervisor's requeue and eviction, and the ticket's removal paths)
each ticket appears in `queue` at most once and every enqueued ticket is
undisposed. -/
theorem reachable_no_dup_all_live (timeout retries : Int) (q : TicketQueue)
    (h : TicketQueue.Reachable timeout retries q) :
    q.queue.Nodup ∧ ∀ t ∈ q.queue, (q.tickets t).disposed = false := by
  have key : q.Inv := by
    induction h with
    | refl => exact ⟨List.nodup_nil, by simp [TicketQueue.new], by simp [TicketQueue.new]⟩
    | tail hs hstep ih => exact step_preserves_inv _ _ hstep ih
  exact ⟨key.1, key.2.1⟩

/-- Witness for C7: `qTwo` is reachable in two acquire steps and satisfies
the invariant. -/
theorem reachable_no_dup_all_live_witness :
    qTwo.queue.Nodup ∧
    (qTwo.tickets 0).disposed = false ∧ (qTwo.tickets 1).disposed = false := by
  have hreach : TicketQueue.Reachable 1000 3 qTwo :=
    Relation.ReflTransGen.tail
      (Relation.ReflTransGen.tail Relation.ReflTransGen.refl
        (TicketQueue.Step.acquire (TicketQueue.new 1000 3)))
      (TicketQueue.Step.acquire ((TicketQueue.new 1000 3).acquireTicket.1))
  have h := reachable_no_dup_all_live 1000 3 qTwo hreach
  exact ⟨h.1, h.2 0 (by decide), h.2 1 (by decide)⟩

/-- After `removeTicket`, the ticket is gone from a duplicate-free queue. -/
theorem removeTicket_not_mem_after (q : TicketQueue) (t : Nat) (r : Option String)
    (hnd : q.queue.Nodup) : t ∉ (q.removeTicket t r).1.queue := by
  by_cases hm : t ∈ q.queue
  · rw [removeTicket_mem q t r hm]
    exact hnd.not_mem_erase
  · rw [removeTicket_not_mem q t r hm]
    exact hm

/-- Whatever the starting state, `removeFromQueue` leaves the ticket disposed. -/
theorem removeFromQueue_disposes (q : TicketQueue) (t : Nat) (r : Option String) :
    ((q.removeFromQueue t r).1.tickets t).disposed = true := by
  by_cases hd : (q.tickets t).disposed
  · simp [TicketQueue.removeFromQueue, hd]
  · simp [TicketQueue.removeFromQueue, hd]

/-- `removeFromQueue` on an already disposed ticket is a no-op with no events. -/
theorem removeFromQueue_of_disposed (q : TicketQueue) (t : Nat) (r : Option String)
    (hd : (q.tickets t).disposed = true) : q.removeFromQueue t r = (q, []) := by
  simp [TicketQueue.removeFromQueue, hd]

/-- C8: `removeFromQueue` is idempotent: a no-op on an already disposed ticket;
otherwise it performs exactly the owning queue's `removeTicket` (same queue,
same emitted events) and additionally marks the ticket disposed; a second
disposal by any combination of explicit removal and scoped disposal is a no-op
with no events; the scoped-disposal hook is this same path with its fixed
distinguishable reason; and a duplicate-free queue excludes the ticket after
the first disposal. -/
theorem removeFromQueue_idempotent (q : TicketQueue) (t : Nat) (r1 r2 : Option String)
    (hnd : q.queue.Nodup) :
    ((q.tickets t).disposed = true → q.removeFromQueue t r1 = (q, [])) ∧
    ((q.tickets t).disposed = false →
      (q.removeFromQueue t r1).1.queue = (q.removeTicket t r1).1.queue ∧
      (q.removeFromQueue t r1).2 = (q.removeTicket t r1).2 ∧
      ((q.removeFromQueue t r1).1.tickets t).disposed = true ∧
      t ∉ (q.removeFromQueue t r1).1.queue) ∧
    (q.removeFromQueue t r1).1.removeFromQueue t r2 = ((q.removeFromQueue t r1).1, []) ∧
    q.disposeTicket t = q.removeFromQueue t (some explicitResourceManagement) := by
  refine ⟨?_, ?_, ?_, rfl⟩
  · intro hd
    simp [TicketQueue.removeFromQueue, hd]
  · intro hd
    refine ⟨by simp [TicketQueue.removeFromQueue, hd], by simp [TicketQueue.removeFromQueue, hd],
      removeFromQueue_disposes q t r1, ?_⟩
    have hq : (q.removeFromQueue t r1).1.queue = (q.removeTicket t r1).1.queue := by
      simp [TicketQueue.removeFromQueue, hd]
    rw [hq]
    exact removeTicket_not_mem_after q t r1 hnd
  · exact removeFromQueue_of_disposed _ t r2 (removeFromQueue_disposes q t r1)

/-- Witness for C8: first disposal of head ticket 0 of `qTwo` marks it disposed
and removes it; the second disposal is a no-op. -/
theorem removeFromQueue_idempotent_witness :
    qTwo.queue.Nodup ∧
    (qTwo.tickets 0).disposed = false ∧
    ((qTwo.removeFromQueue 0 none).1.tickets 0).disposed = true ∧
    0 ∉ (qTwo.removeFromQueue 0 none).1.queue ∧
    (qTwo.removeFromQueue 0 none).1.removeFromQueue 0 (some "again") =
      ((qTwo.removeFromQueue 0 none).1, []) ∧
    qTwo.disposeTicket 0 = qTwo.removeFromQueue 0 (some explicitResourceManagement) :=
  have h := removeFromQueue_idempotent qTwo 0 none (some "again") (by decide)
  ⟨by decide, by decide, (h.2.1 (by decide)).2.2.1, (h.2.1 (by decide)).2.2.2,
   h.2.2.1, h.2.2.2⟩

/-- C10: on an undisposed ticket that is not enqueued, `removeFromQueue` leaves
the queue completely unchanged (same order, same counter, every other ticket
record untouched, no events) yet marks the ticket disposed, so a subsequent
`waitForFirst` on it rejects with the disposed condition, not the not-present
condition. -/
theorem removeFromQueue_unenqueued (q : TicketQueue) (t : Nat) (r : Option String)
    (hm : t ∉ q.queue) (hd : (q.tickets t).disposed = false) :
    (q.removeFromQueue t r).1.queue = q.queue ∧
    (q.removeFromQueue t r).2 = [] ∧
    (q.removeFromQueue t r).1.ticketCount = q.ticketCount ∧
    (∀ u, u ≠ t → (q.removeFromQueue t r).1.tickets u = q.tickets u) ∧
    ((q.removeFromQueue t r).1.tickets t).disposed = true ∧
    (q.removeFromQueue t r).1.waitForFirst t = WaitOutcome.rejectedDisposed := by
  have hrm := removeTicket_not_mem q t r hm
  refine ⟨?_, ?_, removeFromQueue_ticketCount q t r, ?_, removeFromQueue_disposes q t r, ?_⟩
  · simp [TicketQueue.removeFromQueue, hd, hrm]
  · simp [TicketQueue.removeFromQueue, hd, hrm]
  · intro u hu
    simp [TicketQueue.removeFromQueue, hd, hrm, hu]
  · simp [TicketQueue.waitForFirst, removeFromQueue_disposes q t r]

/-- Witness for C10: a directly constructed, never enqueued ticket 0 on a fresh
queue. -/
theorem removeFromQueue_unenqueued_witness :
    (0 ∉ (TicketQueue.new 1000 3).queue) ∧
    ((TicketQueue.new 1000 3).tickets 0).disposed = false ∧
    ((TicketQueue.new 1000 3).removeFromQueue 0 none).1.queue = [] ∧
    ((TicketQueue.new 1000 3).removeFromQueue 0 none).2 = [] ∧
    (((TicketQueue.new 1000 3).removeFromQueue 0 none).1.tickets 0).disposed = true ∧
    ((TicketQueue.new 1000 3).removeFromQueue 0 none).1.waitForFirst 0 =
      WaitOutcome.rejectedDisposed :=
  have h := removeFromQueue_unenqueued (TicketQueue.new 1000 3) 0 none (by decide) (by decide)
  ⟨by decide, by decide, h.1, h.2.1, h.2.2.2.2.1, h.2.2.2.2.2⟩

/-- C9: construction rejects a negative (defaulted) timeout or retry limit, so
no queue value is ever produced in a broken state; omitted options produce a
queue with `ticketTimeout = 1000` and `ticketRetries = 3`; timeout `0`
succeeds, and on any queue with `ticketTimeout = 0` the `newFirstTicket`
listener never arms a stall timer. -/
theorem construction_validation :
    (∀ o : TicketQueueOptions,
      (o.ticketTimeout.getD 1000 < 0 ∨ o.ticketRetries.getD 3 < 0) →
      ∀ q, mkTicketQueue o ≠ Except.ok q) ∧
    mkTicketQueue { ticketTimeout := none, ticketRetries := none } =
      Except.ok (TicketQueue.new 1000 3) ∧
    (∀ r : Int, 0 ≤ r →
      mkTicketQueue { ticketTimeout := some 0, ticketRetries := some r } =
        Except.ok (TicketQueue.new 0 r)) ∧
    (∀ (q : TicketQueue) (newHead : Option Nat),
      q.ticketTimeout = 0 → q.armsStallTimer newHead = false) := by
  refine ⟨?_, rfl, ?_, ?_⟩
  · intro o ho q
    rcases ho with h1 | h1
    · simp [mkTicketQueue, h1]
    · by_cases h2 : o.ticketTimeout.getD 1000 < 0
      · simp [mkTicketQueue, h2]
      · simp [mkTicketQueue, h2, h1]
  · intro r hr
    have h2 : ¬(r < 0) := not_lt.mpr hr
    simp [mkTicketQueue, h2]
  · intro q newHead hz
    simp [TicketQueue.armsStallTimer, hz]

/-- Witness for C9: a negative timeout is rejected, defaults are applied,
timeout 0 is accepted and never arms the supervisor. -/
theorem construction_validation_witness :
    mkTicketQueue { ticketTimeout := some (-1), ticketRetries := none } ≠
      Except.ok (TicketQueue.new (-1) 3) ∧
    mkTicketQueue { ticketTimeout := none, ticketRetries := none } =
      Except.ok (TicketQueue.new 1000 3) ∧
    mkTicketQueue { ticketTimeout := some 0, ticketRetries := some 3 } =
      Except.ok (TicketQueue.new 0 3) ∧
    (TicketQueue.new 0 3).armsStallTimer (some 0) = false :=
  have h := construction_validation
  ⟨h.1 { ticketTimeout := some (-1), ticketRetries := none } (Or.inl (by decide)) _,
   h.2.1, h.2.2.1 3 (by decide), h.2.2.2 (TicketQueue.new 0 3) (some 0) rfl⟩

/-- The events emitted when the head ticket 0 of `qTwo` is removed. -/
def removalEvents : List Event := (qTwo.removeTicket 0 none).2

/-- The pending waiter of `waitForFirst(1)` on `qTwo` after the events of that
removal are delivered to its listeners: ticket 1 became head, so it resolved. -/
def waiterAfterPromotion : Waiter := (mkWaiter 1).deliverAll removalEvents

/-- C2, evaluated at the failing input: on `qTwo` (tickets 0 and 1, head 0)
`waitForFirst 1` goes pending with both listeners subscribed; removing head 0
emits `removeTicket 0` then `newFirstTicket (some 1)`, which settles the wait
successfully exactly once — but the success path of `newTicketListener`
unsubscribes only the `newFirstTicket` listener, so after settlement the
`removeTicket` listener is still subscribed, contradicting the claim that both
interests are deregistered at the settlement point. -/
theorem waitForFirst_success_keeps_remove_listener :
    qTwo.waitForFirst 1 = WaitOutcome.pending ∧
    removalEvents = [Event.removeTicket 0 none, Event.newFirstTicket (some 1)] ∧
    waiterAfterPromotion.result = some SettleResult.resolved ∧
    waiterAfterPromotion.subNewFirst = false ∧
    waiterAfterPromotion.subRemove = true := by
  decide

/-- Iterated stall-timer expiries, all watching ticket `t`. -/
def TicketQueue.fireN (t : Nat) (q : TicketQueue) : Nat → TicketQueue
  | 0 => q
  | n + 1 => ((TicketQueue.fireN t q n).stallTimerFire t).1

/-- Iterated expiries never touch the retry-limit configuration. -/
theorem fireN_ticketRetries (t : Nat) (q : TicketQueue) (n : Nat) :
    (TicketQueue.fireN t q n).ticketRetries = q.ticketRetries := by
  induction n with
  | zero => rfl
  | succ n ih =>
    show ((TicketQueue.fireN t q n).stallTimerFire t).1.ticketRetries = q.ticketRetries
    rw [stallTimerFire_ticketRetries, ih]

/-- C1: with retry limit `R`, consider the pre-expiry states `p 0 .. p R` of a
run in which ticket `t` starts with `retries = 0`, every expiry finds `t` still
head, the operations between consecutive expiries never touch `t`'s record
(nothing else writes `retries`), and `t` is never removed by any caller (its
retries would otherwise not survive).  Then each of the first `R` expiries
increments `t`'s retries — taking exactly the values `1 .. R` — and requeues
it from head to tail, and the expiry that finds `retries = R` evicts `t`
through the very same `removeTicket` path as explicit removal, emitting the
`removeTicket` notification with the fixed stall reason. -/
theorem stall_supervision_requeue_evict
    (R : Nat) (t : Nat) (p : Nat → TicketQueue)
    (hlimit : ∀ i, (p i).ticketRetries = (R : Int))
    (hhead : ∀ i, i ≤ R → (p i).getFirstTicket = some t)
    (hzero : ((p 0).tickets t).retries = 0)
    (henv : ∀ i, i < R →
      (p (i + 1)).tickets t = ((p i).stallTimerFire t).1.tickets t)
    (hnd : (p R).queue.Nodup) :
    (∀ i, i < R →
      (((p i).stallTimerFire t).1.tickets t).retries = i + 1 ∧
      ((p i).stallTimerFire t).1.queue = (p i).queue.tail ++ [t] ∧
      ((p i).stallTimerFire t).2 =
        [Event.newFirstTicket (((p i).queue.tail ++ [t]).head?)]) ∧
    (p R).stallTimerFire t = (p R).removeTicket t (some stallReason) ∧
    t ∉ ((p R).stallTimerFire t).1.queue ∧
    (((p R).stallTimerFire t).1.tickets t).disposed = true ∧
    ((p R).stallTimerFire t).2 =
      [Event.removeTicket t (some stallReason),
       Event.newFirstTicket ((p R).stallTimerFire t).1.getFirstTicket] := by
  have hys : ∀ i, i ≤ R → ((p i).tickets t).retries = i := by
    intro i
    induction i with
    | zero => intro _; exact hzero
    | succ i ih =>
      intro hle
      have hi : i < R := Nat.lt_of_succ_le hle
      have hr := ih (le_of_lt hi)
      have hlt : (((p i).tickets t).retries : Int) < (p i).ticketRetries := by
        rw [hr, hlimit i]
        exact_mod_cast hi
      rw [henv i hi, stallTimerFire_requeue (p i) t (hhead i (le_of_lt hi)) hlt]
      simp [hr]
  have hreq : ∀ i, i < R →
      (((p i).stallTimerFire t).1.tickets t).retries = i + 1 ∧
      ((p i).stallTimerFire t).1.queue = (p i).queue.tail ++ [t] ∧
      ((p i).stallTimerFire t).2 =
        [Event.newFirstTicket (((p i).queue.tail ++ [t]).head?)] := by
    intro i hi
    have hr := hys i (le_of_lt hi)
    have hlt : (((p i).tickets t).retries : Int) < (p i).ticketRetries := by
      rw [hr, hlimit i]
      exact_mod_cast hi
    rw [stallTimerFire_requeue (p i) t (hhead i (le_of_lt hi)) hlt]
    exact ⟨by simp [hr], rfl, rfl⟩
  have hrR := hys R (le_refl R)
  have hge : ¬ (((p R).tickets t).retries : Int) < (p R).ticketRetries := by
    rw [hrR, hlimit R]
    exact lt_irrefl _
  have hevict := stallTimerFire_evict (p R) t (hhead R (le_refl R)) hge
  have hmem : t ∈ (p R).queue := mem_of_getFirstTicket _ _ (hhead R (le_refl R))
  refine ⟨hreq, hevict, ?_, ?_, ?_⟩
  · rw [hevict]
    exact removeTicket_not_mem_after (p R) t _ hnd
  · rw [hevict, removeTicket_mem _ _ _ hmem]
    simp
  · rw [hevict, removeTicket_mem _ _ _ hmem]
    have hh' : (p R).queue.head? = some t := hhead R (le_refl R)
    simp [hhead R (le_refl R), hh', TicketQueue.getFirstTicket]

/-- One acquired ticket (id 0) in a queue constructed with retry limit 1. -/
def qOneRetry : TicketQueue := (TicketQueue.new 1000 1).acquireTicket.1

/-- The pre-expiry states of the run where ticket 0 of `qOneRetry` stalls
forever: expiry `i+1` follows directly on expiry `i`. -/
def pOne : Nat → TicketQueue :=
  TicketQueue.fireN 0 qOneRetry

/-- Witness for C1: ticket 0 alone in a retry-limit-1 queue is requeued with
retries 1 by the first expiry and evicted with the fixed stall reason by the
second. -/
theorem stall_supervision_requeue_evict_witness :
    (((pOne 0).stallTimerFire 0).1.tickets 0).retries = 1 ∧
    (pOne 1).stallTimerFire 0 = (pOne 1).removeTicket 0 (some stallReason) ∧
    0 ∉ ((pOne 1).stallTimerFire 0).1.queue ∧
    (((pOne 1).stallTimerFire 0).1.tickets 0).disposed = true ∧
    ((pOne 1).stallTimerFire 0).2 =
      [Event.removeTicket 0 (some stallReason),
       Event.newFirstTicket ((pOne 1).stallTimerFire 0).1.getFirstTicket] :=
  have h := stall_supervision_requeue_evict 1 0 pOne
    (fun i => by
      show (TicketQueue.fireN 0 qOneRetry i).ticketRetries = ((1 : Nat) : Int)
      rw [fireN_ticketRetries]
      rfl)
    (fun i hi => by interval_cases i <;> decide)
    (by decide)
    (fun i hi => by interval_cases i; rfl)
    (by decide)
  ⟨(h.1 0 (by decide)).1, h.2.1, h.2.2.1, h.2.2.2.1, h.2.2.2.2⟩
